import Mathlib

/-!
Shallow embedding of the color-space homogeneity decision subsystem of
`itkVoronoiSegmentationRGBImageFilter` (ITK).

Sources embedded:
* `src/Code/Algorithms/itkVoronoiSegmentationRGBImageFilter.h` — the class
  declaration, including the inline bodies of `SetMean`, `SetVar`, `GetMean`,
  `GetVar`, `GetMeanPercentError`, `GetVarPercentError`, `GetMeanTolerance`,
  `GetVarTolerance`, `SetTestMean`, `SetTestVar`, `GetTestMean`, `GetTestVar`.
* `src/Code/Common/itkMacro.h` — `itkSetMacro(MaxValueOfRGB,double)` and
  `itkGetMacro(MaxValueOfRGB,double)` expand to `SetMaxValueOfRGB` /
  `GetMaxValueOfRGB`.

The member-function bodies defined in `itkVoronoiSegmentationRGBImageFilter.txx`
(`SetMeanPercentError`, `SetVarPercentError`, `SetInput`, `TakeAPrior`,
`TestHomogeneity`, the constructor) are not part of the repository snapshot;
they are modelled from the specification, and each such definition's doc
comment says so.

Modelling conventions:
* `double`/`float` values are modelled as `ℚ`.
* A caller-supplied C array `double x[6]` is modelled as a function `ℕ → ℚ`
  of which only the entries `0..5` are ever read, matching the copy loops
  `for(int i=0;i<6;i++)`.
* A member array `double m_X[6]` is modelled as a function `ℕ → ℚ` whose
  entries `0..5` carry the array; setters only touch those entries.
* Pixel locations (`IndexType`) are modelled as an abstract index type `ℕ`;
  an image is a function from pixel locations to pixel values.
* The modification time updated by `this->Modified()` (itkObject) is modelled
  as a counter field `mtime` that `Modified` increments.
* The square root used to turn a population variance into a standard
  deviation is floating-point `sqrt` in the program; it is abstracted here as
  an explicit function parameter `sq : ℚ → ℚ`, so every definition stays
  computable.  All general theorems below hold for every choice of `sq`;
  concrete instances pick a `sq` that agrees with the exact square root on
  every value it is applied to.
-/

namespace ITK.VoronoiRGB

/-- The private state of `VoronoiSegmentationRGBImageFilter`
(itkVoronoiSegmentationRGBImageFilter.h, lines 125-135), together with the
stored input image (held by the base class) and the itkObject modification
time.  The field `var` stores the standard deviation, per the source comment
on `m_Var`: "actually it is the STD of the object. (sqrt(Var))". -/
structure FilterState where
  mean : ℕ → ℚ
  var : ℕ → ℚ
  meanTolerance : ℕ → ℚ
  varTolerance : ℕ → ℚ
  meanPercentError : ℕ → ℚ
  varPercentError : ℕ → ℚ
  maxValueOfRGB : ℚ
  testMean : Fin 3 → ℕ
  testVar : Fin 3 → ℕ
  inputImage : ℕ → ℚ × ℚ × ℚ
  workingImage : ℕ → ℕ → ℚ
  mtime : ℕ

/-- The copy loop `for(int i=0;i<6;i++) a[i]=x[i]` on a member array `a`:
entries `0..5` are overwritten with the caller's array, the rest of the
model function is untouched. -/
def upd6 (a x : ℕ → ℚ) : ℕ → ℚ := fun j => if j < 6 then x j else a j

/-- `SetMean` (header line 87): `for(int i=0;i<6;i++) m_Mean[i]=x[i];`. -/
def SetMean (s : FilterState) (x : ℕ → ℚ) : FilterState :=
  { s with mean := upd6 s.mean x }

/-- `SetVar` (header line 88): `for(int i=0;i<6;i++) m_Var[i]=x[i];`. -/
def SetVar (s : FilterState) (x : ℕ → ℚ) : FilterState :=
  { s with var := upd6 s.var x }

/-- `GetMean` (header line 85): copies `m_Mean[0..5]` into the caller's
array; modelled as returning those six entries. -/
def GetMean (s : FilterState) : Fin 6 → ℚ := fun i => s.mean i

/-- `GetVar` (header line 86): copies `m_Var[0..5]` into the caller's array. -/
def GetVar (s : FilterState) : Fin 6 → ℚ := fun i => s.var i

/-- `GetMeanTolerance` (header line 89). -/
def GetMeanTolerance (s : FilterState) : Fin 6 → ℚ := fun i => s.meanTolerance i

/-- `GetVarTolerance` (header line 90). -/
def GetVarTolerance (s : FilterState) : Fin 6 → ℚ := fun i => s.varTolerance i

/-- `SetTestMean` (header lines 100-104): stores the three channel indices
verbatim, with no range check. -/
def SetTestMean (s : FilterState) (t1 t2 t3 : ℕ) : FilterState :=
  { s with testMean := ![t1, t2, t3] }

/-- `SetTestVar` (header lines 105-109): stores the three channel indices
verbatim, with no range check. -/
def SetTestVar (s : FilterState) (t1 t2 t3 : ℕ) : FilterState :=
  { s with testVar := ![t1, t2, t3] }

/-- `this->Modified()` from itkObject: bumps the modification time. -/
def Modified (s : FilterState) : FilterState := { s with mtime := s.mtime + 1 }

/-- `SetMaxValueOfRGB`, the expansion of `itkSetMacro(MaxValueOfRGB,double)`
(itkMacro.h lines 54-64): `if (this->m_MaxValueOfRGB != _arg) {
this->m_MaxValueOfRGB = _arg; this->Modified(); }`. -/
def SetMaxValueOfRGB (s : FilterState) (v : ℚ) : FilterState :=
  if s.maxValueOfRGB ≠ v then Modified { s with maxValueOfRGB := v } else s

/-- `GetMaxValueOfRGB`, the expansion of `itkGetMacro(MaxValueOfRGB,double)`
(itkMacro.h lines 70-76). -/
def GetMaxValueOfRGB (s : FilterState) : ℚ := s.maxValueOfRGB

/-- Value channel of a pixel: `V = max(R,G,B)` (spec §4.1). -/
def pixV (r g b : ℚ) : ℚ := max r (max g b)

/-- Minimum channel of a pixel. -/
def pixMin (r g b : ℚ) : ℚ := min r (min g b)

/-- Chroma channel of a pixel: `C = max(R,G,B) - min(R,G,B)` (spec §4.1). -/
def pixC (r g b : ℚ) : ℚ := pixV r g b - pixMin r g b

/-- Modelled from the spec: the hue sextant of the standard piecewise hue
computation (spec §4.1, body in the missing
itkVoronoiSegmentationRGBImageFilter.txx).  When the chroma is zero
(achromatic pixel) the hue is defined as 0; otherwise the dominant channel
selects the linear combination of the two other channels, giving a value in
`[0,6)`. -/
def hue6 (r g b : ℚ) : ℚ :=
  if pixC r g b = 0 then 0
  else if pixV r g b = r then
    (if g - b < 0 then (g - b) / pixC r g b + 6 else (g - b) / pixC r g b)
  else if pixV r g b = g then (b - r) / pixC r g b + 2
  else (r - g) / pixC r g b + 4

/-- Modelled from the spec: the hue channel scaled so that it ranges over
`[0, maxValue]` like the other channels (spec §4.1). -/
def pixH (maxV r g b : ℚ) : ℚ := hue6 r g b * maxV / 6

/-- Modelled from the spec: ColorSpaceExpander on one pixel (spec §4.1, body
in the missing .txx).  Produces the 6-component feature vector in the fixed
order `[R, G, B, H, C, V]` (spec §3). -/
def expandPixel (maxV : ℚ) (p : ℚ × ℚ × ℚ) : ℕ → ℚ := fun j =>
  if j = 0 then p.1
  else if j = 1 then p.2.1
  else if j = 2 then p.2.2
  else if j = 3 then pixH maxV p.1 p.2.1 p.2.2
  else if j = 4 then pixC p.1 p.2.1 p.2.2
  else if j = 5 then pixV p.1 p.2.1 p.2.2
  else 0

/-- Modelled from the spec: ColorSpaceExpander on a whole image,
`Expand(inputImage, maxValue) -> workingImage` (spec §4.1). -/
def expandImage (maxV : ℚ) (img : ℕ → ℚ × ℚ × ℚ) : ℕ → ℕ → ℚ :=
  fun p => expandPixel maxV (img p)

/-- Modelled from the spec: `SetInput` (declared at header line 118, body in
the missing .txx).  Stores the input image and replaces the working image in
full with the expansion under the current `MaxValueOfRGB` (spec §3:
"rebuilt whenever input or max-value changes"; §4.1: "replaces any
previously held working image in full"). -/
def SetInput (s : FilterState) (input : ℕ → ℚ × ℚ × ℚ) : FilterState :=
  { s with inputImage := input
           workingImage := expandImage s.maxValueOfRGB input }

/-- Modelled from the spec: `SetMeanPercentError` (declared at header line
81, body in the missing .txx).  Stores the percent errors and recomputes the
mean tolerances as `MeanTolerance[i] = Mean[i] * MeanPercentError[i]`
(spec §4.3; §3 "Tolerance pair"). -/
def SetMeanPercentError (s : FilterState) (x : ℕ → ℚ) : FilterState :=
  { s with meanPercentError := upd6 s.meanPercentError x
           meanTolerance := fun j => if j < 6 then s.mean j * x j else s.meanTolerance j }

/-- Modelled from the spec: `SetVarPercentError` (declared at header line
82, body in the missing .txx).  Stores the percent errors and recomputes the
variance tolerances as `VarTolerance[i] = Std[i] * VarPercentError[i]`,
where the stored `m_Var` is the standard deviation (spec §4.3). -/
def SetVarPercentError (s : FilterState) (x : ℕ → ℚ) : FilterState :=
  { s with varPercentError := upd6 s.varPercentError x
           varTolerance := fun j => if j < 6 then s.var j * x j else s.varTolerance j }

/-- Sum of channel `c` of the working image over a pixel-index list. -/
def regionSum (img : ℕ → ℕ → ℚ) (plist : List ℕ) (c : ℕ) : ℚ :=
  (plist.map fun p => img p c).sum

/-- Modelled from the spec: the region's mean of channel `c` over the given
pixel indices (spec §4.5 step 2). -/
def regionMean (img : ℕ → ℕ → ℚ) (plist : List ℕ) (c : ℕ) : ℚ :=
  regionSum img plist c / plist.length

/-- Modelled from the spec: the region's population variance of channel `c`
over the given pixel indices (spec §4.2: population statistics, no Bessel
correction, applied consistently with §4.5 step 3). -/
def regionVar (img : ℕ → ℕ → ℚ) (plist : List ℕ) (c : ℕ) : ℚ :=
  ((plist.map fun p => (img p c - regionMean img plist c) ^ 2).sum) / plist.length

/-- The mean check of spec §4.5 step 2 on one channel, as the boolean the
code computes: `|regionMean[c] - Mean[c]| ≤ MeanTolerance[c]`. -/
def meanPass (s : FilterState) (plist : List ℕ) (c : ℕ) : Bool :=
  decide (|regionMean s.workingImage plist c - s.mean c| ≤ s.meanTolerance c)

/-- The standard-deviation check of spec §4.5 step 3 on one channel:
`|regionStd[c] - Std[c]| ≤ VarTolerance[c]`, the standard deviation being the
square root (`sq`) of the population variance. -/
def varPass (sq : ℚ → ℚ) (s : FilterState) (plist : List ℕ) (c : ℕ) : Bool :=
  decide (|sq (regionVar s.workingImage plist c) - s.var c| ≤ s.varTolerance c)

/-- Modelled from the spec: `TestHomogeneity` (declared at header line 137,
body in the missing .txx), following the algorithm of spec §4.5:
1. an empty index list is rejected;
2. the three `TestMean` channels are mean-checked, rejecting on the first
   failure (short-circuit `&&`);
3. the three `TestVar` channels are standard-deviation-checked the same way;
4. if all six checks pass, accept. -/
def TestHomogeneity (sq : ℚ → ℚ) (s : FilterState) (plist : List ℕ) : Bool :=
  if plist.isEmpty then false
  else
    (meanPass s plist (s.testMean 0) && meanPass s plist (s.testMean 1) &&
      meanPass s plist (s.testMean 2)) &&
    (varPass sq s plist (s.testVar 0) && varPass sq s plist (s.testVar 1) &&
      varPass sq s plist (s.testVar 2))

/-- Modelled from the spec: `TakeAPrior` (declared at header line 116, body
in the missing .txx), i.e. the StatisticsEstimator of spec §4.2 applied to
the working image and a binary prior mask over the pixel domain `dom`.  It
iterates every pixel the mask marks as object, computes population mean and
standard deviation per channel (the standard deviation through `sq`), and
overwrites the stored statistics and, with them, the tolerances (spec §3:
tolerances are recomputed whenever Mean/Std change).  A mask selecting zero
pixels is a configuration error (spec §4.2, §7), modelled as
`Except.error ()`. -/
def TakeAPrior (sq : ℚ → ℚ) (s : FilterState) (mask : ℕ → Bool)
    (dom : List ℕ) : Except Unit FilterState :=
  let obj := dom.filter fun p => mask p
  if obj.isEmpty then Except.error ()
  else Except.ok
    { s with mean := fun j => if j < 6 then regionMean s.workingImage obj j else s.mean j
             var := fun j => if j < 6 then sq (regionVar s.workingImage obj j) else s.var j
             meanTolerance := fun j =>
               if j < 6 then regionMean s.workingImage obj j * s.meanPercentError j
               else s.meanTolerance j
             varTolerance := fun j =>
               if j < 6 then sq (regionVar s.workingImage obj j) * s.varPercentError j
               else s.varTolerance j }

/-- Modelled from the spec: the freshly constructed filter (constructor in
the missing .txx).  `MaxValueOfRGB` defaults to 255, i.e. 8 bit per channel
(header lines 92-94, spec §6); the remaining state starts out zeroed. -/
def initState : FilterState :=
  { mean := fun _ => 0
    var := fun _ => 0
    meanTolerance := fun _ => 0
    varTolerance := fun _ => 0
    meanPercentError := fun _ => 0
    varPercentError := fun _ => 0
    maxValueOfRGB := 255
    testMean := fun _ => 0
    testVar := fun _ => 0
    inputImage := fun _ => (0, 0, 0)
    workingImage := fun _ _ => 0
    mtime := 0 }

/-- A constant achromatic negative-valued input image, used for concrete
instances: every pixel is `(-1,-1,-1)`. -/
def negInput : ℕ → ℚ × ℚ × ℚ := fun _ => (-1, -1, -1)

/-- A concrete reachable configuration with a negative target mean on
channel 0: input all `(-1,-1,-1)`, both channel selections `(0,0,0)`,
`Mean = -1` and `Std = 0` on every channel. -/
def negMeanConfig : FilterState :=
  SetVar
    (SetMean
      (SetTestVar (SetTestMean (SetInput initState negInput) 0 0 0) 0 0 0)
      fun _ => -1)
    fun _ => 0

/-- A concrete configuration whose tolerance arrays are consistent with its
statistics and percent errors: `Mean = 1`, `MeanPercentError = 1`, hence
`MeanTolerance = 1` on channels 0..5. -/
def consistentConfig : FilterState :=
  SetMeanPercentError (SetMean initState fun _ => 1) fun _ => 1

/-- A concrete input image whose pixel 0 is `(2,1,0)`, a chromatic pixel
whose hue channel depends on `MaxValueOfRGB`. -/
def chromaticInput : ℕ → ℚ × ℚ × ℚ := fun _ => (2, 1, 0)

end ITK.VoronoiRGB

namespace ITK.VoronoiRGB

lemma le_pixV_left (r g b : ℚ) : r ≤ pixV r g b := le_max_left _ _

lemma le_pixV_mid (r g b : ℚ) : g ≤ pixV r g b :=
  le_trans (le_max_left _ _) (le_max_right _ _)

lemma le_pixV_right (r g b : ℚ) : b ≤ pixV r g b :=
  le_trans (le_max_right _ _) (le_max_right _ _)

lemma pixMin_le_left (r g b : ℚ) : pixMin r g b ≤ r := min_le_left _ _

lemma pixMin_le_mid (r g b : ℚ) : pixMin r g b ≤ g :=
  le_trans (min_le_right _ _) (min_le_left _ _)

lemma pixMin_le_right (r g b : ℚ) : pixMin r g b ≤ b :=
  le_trans (min_le_right _ _) (min_le_right _ _)

lemma pixC_nonneg (r g b : ℚ) : 0 ≤ pixC r g b := by
  have h1 := pixMin_le_left r g b
  have h2 := le_pixV_left r g b
  unfold pixC
  linarith

/-- Any difference of two channels is bounded by the chroma. -/
lemma sub_le_pixC (r g b : ℚ) (x y : ℚ) (hx : x ≤ pixV r g b)
    (hy : pixMin r g b ≤ y) : x - y ≤ pixC r g b := by
  unfold pixC
  linarith

/-- The hue sextant always lies in `[0, 6]`. -/
lemma hue6_bounds (r g b : ℚ) : 0 ≤ hue6 r g b ∧ hue6 r g b ≤ 6 := by
  unfold hue6
  by_cases hc : pixC r g b = 0
  · simp [hc]
  · have hcpos : 0 < pixC r g b := lt_of_le_of_ne (pixC_nonneg r g b) (Ne.symm hc)
    have hgb : g - b ≤ pixC r g b :=
      sub_le_pixC r g b g b (le_pixV_mid r g b) (pixMin_le_right r g b)
    have hbg : b - g ≤ pixC r g b :=
      sub_le_pixC r g b b g (le_pixV_right r g b) (pixMin_le_mid r g b)
    have hbr : b - r ≤ pixC r g b :=
      sub_le_pixC r g b b r (le_pixV_right r g b) (pixMin_le_left r g b)
    have hrb : r - b ≤ pixC r g b :=
      sub_le_pixC r g b r b (le_pixV_left r g b) (pixMin_le_right r g b)
    have hrg : r - g ≤ pixC r g b :=
      sub_le_pixC r g b r g (le_pixV_left r g b) (pixMin_le_mid r g b)
    have hgr : g - r ≤ pixC r g b :=
      sub_le_pixC r g b g r (le_pixV_mid r g b) (pixMin_le_left r g b)
    simp only [hc, if_false]
    split
    · split
      · have h1 : (-1 : ℚ) ≤ (g - b) / pixC r g b := by
          rw [le_div_iff₀ hcpos]; linarith
        have h2 : (g - b) / pixC r g b < 0 :=
          div_neg_of_neg_of_pos (by assumption) hcpos
        constructor <;> linarith
      · have h1 : (g - b) / pixC r g b ≤ 1 := by
          rw [div_le_one hcpos]; exact hgb
        have h2 : ¬ (g - b < 0) := by assumption
        have h3 : (0 : ℚ) ≤ (g - b) / pixC r g b :=
          div_nonneg (by linarith) (le_of_lt hcpos)
        constructor <;> linarith
    · split
      · have h1 : (-1 : ℚ) ≤ (b - r) / pixC r g b := by
          rw [le_div_iff₀ hcpos]; linarith
        have h2 : (b - r) / pixC r g b ≤ 1 := by
          rw [div_le_one hcpos]; exact hbr
        constructor <;> linarith
      · have h1 : (-1 : ℚ) ≤ (r - g) / pixC r g b := by
          rw [le_div_iff₀ hcpos]; linarith
        have h2 : (r - g) / pixC r g b ≤ 1 := by
          rw [div_le_one hcpos]; exact hrg
        constructor <;> linarith

/-- The scaled hue lies in `[0, maxV]` whenever `maxV > 0`. -/
lemma pixH_bounds (maxV r g b : ℚ) (hmax : 0 < maxV) :
    0 ≤ pixH maxV r g b ∧ pixH maxV r g b ≤ maxV := by
  obtain ⟨h0, h6⟩ := hue6_bounds r g b
  unfold pixH
  constructor
  · positivity
  · have h1 : hue6 r g b * maxV ≤ 6 * maxV :=
      mul_le_mul_of_nonneg_right h6 (le_of_lt hmax)
    linarith

/-- Characterization of `TestHomogeneity` on a non-empty region: it accepts
exactly when all three selected mean checks and all three selected
standard-deviation checks pass. -/
lemma testHomogeneity_true_iff (sq : ℚ → ℚ) (s : FilterState) (plist : List ℕ)
    (h : plist ≠ []) :
    TestHomogeneity sq s plist = true ↔
      ((∀ k : Fin 3,
          |regionMean s.workingImage plist (s.testMean k) - s.mean (s.testMean k)| ≤
            s.meanTolerance (s.testMean k)) ∧
       (∀ k : Fin 3,
          |sq (regionVar s.workingImage plist (s.testVar k)) - s.var (s.testVar k)| ≤
            s.varTolerance (s.testVar k))) := by
  have hne : plist.isEmpty = false := by
    cases plist with
    | nil => exact absurd rfl h
    | cons a l => rfl
  simp only [TestHomogeneity, hne, Bool.false_eq_true, if_false, Bool.and_eq_true,
    meanPass, varPass, decide_eq_true_eq]
  constructor
  · rintro ⟨⟨⟨h0, h1⟩, h2⟩, ⟨v0, v1⟩, v2⟩
    refine ⟨fun k => ?_, fun k => ?_⟩ <;> fin_cases k <;> assumption
  · rintro ⟨hm, hv⟩
    exact ⟨⟨⟨hm 0, hm 1⟩, hm 2⟩, ⟨hv 0, hv 1⟩, hv 2⟩

/-- C1: for every non-empty pixel-index list, `TestHomogeneity` returns true
if and only if, for each of the 3 channels in `TestMean`, the absolute
difference between the region's mean over the working image restricted to
the given indices and the target `Mean` for that channel is at most
`MeanTolerance` for that channel, and, for each of the 3 channels in
`TestVar`, the absolute difference between the region's standard deviation
over the same indices and the target `Std` (the stored `m_Var`) for that
channel is at most `VarTolerance` for that channel; any single exceedance
on a selected channel makes the verdict false. -/
theorem testHomogeneity_accept_iff (sq : ℚ → ℚ) (s : FilterState)
    (plist : List ℕ) (h : plist ≠ []) :
    TestHomogeneity sq s plist = true ↔
      ((∀ k : Fin 3,
          |regionMean s.workingImage plist (s.testMean k) - s.mean (s.testMean k)| ≤
            s.meanTolerance (s.testMean k)) ∧
       (∀ k : Fin 3,
          |sq (regionVar s.workingImage plist (s.testVar k)) - s.var (s.testVar k)| ≤
            s.varTolerance (s.testVar k))) :=
  testHomogeneity_true_iff sq s plist h

/-- C1 witness: the characterization instantiated on a one-pixel region of a
freshly constructed filter. -/
theorem testHomogeneity_accept_iff_witness :
    (([0] : List ℕ) ≠ []) ∧
    (TestHomogeneity id initState [0] = true ↔
      ((∀ k : Fin 3,
          |regionMean initState.workingImage [0] (initState.testMean k) -
            initState.mean (initState.testMean k)| ≤
            initState.meanTolerance (initState.testMean k)) ∧
       (∀ k : Fin 3,
          |id (regionVar initState.workingImage [0] (initState.testVar k)) -
            initState.var (initState.testVar k)| ≤
            initState.varTolerance (initState.testVar k)))) :=
  ⟨by simp, testHomogeneity_accept_iff id initState [0] (by simp)⟩

/-- C7: for every square-root routine and every configuration state,
`TestHomogeneity` applied to the empty pixel-index list returns false: the
empty region is a rejection, not an error, and the function is total, so
the call cannot throw. -/
theorem testHomogeneity_empty (sq : ℚ → ℚ) (s : FilterState) :
    TestHomogeneity sq s [] = false := rfl

/-- C9: `SetMean` followed by `GetMean` returns exactly the six values that
were set, element-wise, and likewise for `SetVar` / `GetVar`; the getters
are functions of the state alone, so they cause no state change. -/
theorem set_get_roundtrip (s : FilterState) (x y : ℕ → ℚ) (i : Fin 6) :
    GetMean (SetMean s x) i = x i ∧ GetVar (SetVar s y) i = y i := by
  constructor <;> simp [GetMean, SetMean, GetVar, SetVar, upd6, i.isLt]

/-- C10: calling `SetMaxValueOfRGB` with the currently stored value leaves
the state entirely unchanged (in particular `Modified` is not called, so
the modification time is untouched); calling it with a different value
changes only `m_MaxValueOfRGB` and the modification time, every other
field being preserved. -/
theorem setMaxValueOfRGB_frame (s : FilterState) (v : ℚ) :
    (v = s.maxValueOfRGB → SetMaxValueOfRGB s v = s) ∧
    (v ≠ s.maxValueOfRGB →
      (SetMaxValueOfRGB s v).maxValueOfRGB = v ∧
      (SetMaxValueOfRGB s v).mtime = s.mtime + 1 ∧
      (SetMaxValueOfRGB s v).mean = s.mean ∧
      (SetMaxValueOfRGB s v).var = s.var ∧
      (SetMaxValueOfRGB s v).meanTolerance = s.meanTolerance ∧
      (SetMaxValueOfRGB s v).varTolerance = s.varTolerance ∧
      (SetMaxValueOfRGB s v).meanPercentError = s.meanPercentError ∧
      (SetMaxValueOfRGB s v).varPercentError = s.varPercentError ∧
      (SetMaxValueOfRGB s v).testMean = s.testMean ∧
      (SetMaxValueOfRGB s v).testVar = s.testVar ∧
      (SetMaxValueOfRGB s v).inputImage = s.inputImage ∧
      (SetMaxValueOfRGB s v).workingImage = s.workingImage) := by
  constructor
  · intro h
    simp [SetMaxValueOfRGB, h]
  · intro h
    simp [SetMaxValueOfRGB, Modified, Ne.symm h]

/-- C10 witness: the no-op case and the frame of the changing case on a
fresh filter at concrete values. -/
theorem setMaxValueOfRGB_frame_witness :
    SetMaxValueOfRGB initState 255 = initState ∧
    (SetMaxValueOfRGB initState 1).mean = initState.mean :=
  ⟨(setMaxValueOfRGB_frame initState 255).1 rfl,
   ((setMaxValueOfRGB_frame initState 1).2 (by decide)).2.2.1⟩

/-- C4: after the percent-error setters run, for every channel `i` in
`[0,5]` the stored tolerance half-widths satisfy exactly
`MeanTolerance[i] = Mean[i] * MeanPercentError[i]` and
`VarTolerance[i] = Std[i] * VarPercentError[i]`, where the `Std` array is
the stored standard deviation `m_Var` (not a variance). -/
theorem tolerance_formula (s : FilterState) (x y : ℕ → ℚ) (i : Fin 6) :
    (SetVarPercentError (SetMeanPercentError s x) y).meanTolerance i =
      (SetVarPercentError (SetMeanPercentError s x) y).mean i *
        (SetVarPercentError (SetMeanPercentError s x) y).meanPercentError i ∧
    (SetVarPercentError (SetMeanPercentError s x) y).varTolerance i =
      (SetVarPercentError (SetMeanPercentError s x) y).var i *
        (SetVarPercentError (SetMeanPercentError s x) y).varPercentError i := by
  constructor <;> simp [SetVarPercentError, SetMeanPercentError, upd6, i.isLt]

/-- C5: an achromatic input pixel (R = G = B) yields chroma channel C = 0
and hue channel H = 0 in the 6-channel feature vector, for every maximum
channel value. -/
theorem achromatic_pixel (maxV v : ℚ) :
    expandPixel maxV (v, v, v) 4 = 0 ∧ expandPixel maxV (v, v, v) 3 = 0 := by
  constructor <;> simp [expandPixel, pixH, hue6, pixC, pixV, pixMin]

/-- C6: for every `MaxValueOfRGB` > 0 and every input pixel whose R, G, B
channels lie in `[0, maxV]`, each of the derived channels H (index 3),
C (index 4) and V (index 5) of the feature vector lies within
`[0, maxV]`. -/
theorem derived_channels_in_range (maxV r g b : ℚ) (hmax : 0 < maxV)
    (hr0 : 0 ≤ r) (hr1 : r ≤ maxV) (hg0 : 0 ≤ g) (hg1 : g ≤ maxV)
    (hb0 : 0 ≤ b) (hb1 : b ≤ maxV) :
    (0 ≤ expandPixel maxV (r, g, b) 3 ∧ expandPixel maxV (r, g, b) 3 ≤ maxV) ∧
    (0 ≤ expandPixel maxV (r, g, b) 4 ∧ expandPixel maxV (r, g, b) 4 ≤ maxV) ∧
    (0 ≤ expandPixel maxV (r, g, b) 5 ∧ expandPixel maxV (r, g, b) 5 ≤ maxV) := by
  have hH := pixH_bounds maxV r g b hmax
  have hVr := le_pixV_left r g b
  have hVle : pixV r g b ≤ maxV := max_le hr1 (max_le hg1 hb1)
  have hM0 : 0 ≤ pixMin r g b := le_min hr0 (le_min hg0 hb0)
  have hC0 := pixC_nonneg r g b
  have e3 : expandPixel maxV (r, g, b) 3 = pixH maxV r g b := by norm_num [expandPixel]
  have e4 : expandPixel maxV (r, g, b) 4 = pixC r g b := by norm_num [expandPixel]
  have e5 : expandPixel maxV (r, g, b) 5 = pixV r g b := by norm_num [expandPixel]
  rw [e3, e4, e5]
  refine ⟨hH, ⟨hC0, ?_⟩, le_trans hr0 hVr, hVle⟩
  unfold pixC
  linarith

/-- C6 witness: the range invariant at `maxV = 255` and pixel
`(10, 20, 30)`. -/
theorem derived_channels_in_range_witness :
    (0 : ℚ) < 255 ∧
    ((0 ≤ expandPixel 255 (10, 20, 30) 3 ∧ expandPixel 255 (10, 20, 30) 3 ≤ 255) ∧
     (0 ≤ expandPixel 255 (10, 20, 30) 4 ∧ expandPixel 255 (10, 20, 30) 4 ≤ 255) ∧
     (0 ≤ expandPixel 255 (10, 20, 30) 5 ∧ expandPixel 255 (10, 20, 30) 5 ≤ 255)) :=
  ⟨by norm_num,
   derived_channels_in_range 255 10 20 30 (by norm_num) (by norm_num) (by norm_num)
     (by norm_num) (by norm_num) (by norm_num) (by norm_num)⟩

/-- C2 counterexample: a single completed `SetMean` call leaves the
previously computed mean-tolerance array stale (still 1, while
`Mean[0] * MeanPercentError[0]` is now 2·1), and a single completed
`SetMaxValueOfRGB` call leaves a working image that no longer reflects the
stored input image under the new maximum: at pixel 0 the hue channel keeps
the value 255/12 computed for maximum 255 instead of the value 1 that the
expansion under maximum 12 yields. -/
theorem setter_consistency_cex :
    ((SetMean consistentConfig fun _ => 2).meanTolerance 0 ≠
      (SetMean consistentConfig fun _ => 2).mean 0 *
        (SetMean consistentConfig fun _ => 2).meanPercentError 0) ∧
    ((SetMaxValueOfRGB (SetInput initState chromaticInput) 12).workingImage 0 3 ≠
      expandImage (SetMaxValueOfRGB (SetInput initState chromaticInput) 12).maxValueOfRGB
        (SetMaxValueOfRGB (SetInput initState chromaticInput) 12).inputImage 0 3) := by
  constructor
  · simp [SetMean, consistentConfig, SetMeanPercentError, initState, upd6]
  · simp [SetMaxValueOfRGB, Modified, SetInput, initState, chromaticInput,
      expandImage, expandPixel, pixH, pixC, pixV, pixMin, hue6]
    norm_num

/-- C2 (amended): each piece of derived state is recomputed exactly by the
setter that owns it — `SetMeanPercentError` / `SetVarPercentError` rebuild
the tolerance arrays from the current statistics, and `SetInput` rebuilds
the working image from the new input under the current `MaxValueOfRGB` —
while `SetMean`, `SetVar` and `SetMaxValueOfRGB` only store their argument
and leave the dependent tolerance arrays and working image untouched. -/
theorem setter_recomputation (s : FilterState) (x y : ℕ → ℚ) (v : ℚ)
    (input : ℕ → ℚ × ℚ × ℚ) (i : Fin 6) :
    (SetMeanPercentError s x).meanTolerance i =
      (SetMeanPercentError s x).mean i * (SetMeanPercentError s x).meanPercentError i ∧
    (SetVarPercentError s y).varTolerance i =
      (SetVarPercentError s y).var i * (SetVarPercentError s y).varPercentError i ∧
    (SetInput s input).workingImage =
      expandImage (SetInput s input).maxValueOfRGB (SetInput s input).inputImage ∧
    (SetMean s x).meanTolerance = s.meanTolerance ∧
    (SetVar s y).varTolerance = s.varTolerance ∧
    (SetMaxValueOfRGB s v).workingImage = s.workingImage ∧
    (SetMaxValueOfRGB s v).inputImage = s.inputImage := by
  refine ⟨?_, ?_, rfl, rfl, rfl, ?_, ?_⟩
  · simp [SetMeanPercentError, upd6, i.isLt]
  · simp [SetVarPercentError, upd6, i.isLt]
  · unfold SetMaxValueOfRGB
    split <;> simp [Modified]
  · unfold SetMaxValueOfRGB
    split <;> simp [Modified]

/-- C3 counterexample: the out-of-range channel index 7 passed to
`SetTestMean` is accepted and stored rather than rejected, and the
non-positive value -3 passed to `SetMaxValueOfRGB` is accepted and stored;
neither call surfaces an error. -/
theorem unchecked_setters_cex :
    ¬ (7 : ℕ) < 6 ∧ (SetTestMean initState 7 1 2).testMean 0 = 7 ∧
    (-3 : ℚ) ≤ 0 ∧ (SetMaxValueOfRGB initState (-3)).maxValueOfRGB = -3 :=
  ⟨by norm_num, rfl, by norm_num, rfl⟩

/-- C3 (amended): of the listed configuration errors only the zero-pixel
prior mask is surfaced — `TakeAPrior` signals a configuration error when
the mask selects no pixels — while the setters perform no validation:
`SetTestMean` and `SetTestVar` store arbitrary channel indices unchecked,
and `SetMaxValueOfRGB` stores any value differing from the current one,
non-positive values included. -/
theorem error_surfacing (sq : ℚ → ℚ) (s : FilterState) (t1 t2 t3 : ℕ) (v : ℚ)
    (mask : ℕ → Bool) (dom : List ℕ)
    (hmask : dom.filter (fun p => mask p) = []) (hv : v ≠ s.maxValueOfRGB) :
    TakeAPrior sq s mask dom = Except.error () ∧
    (SetTestMean s t1 t2 t3).testMean = ![t1, t2, t3] ∧
    (SetTestVar s t1 t2 t3).testVar = ![t1, t2, t3] ∧
    (SetMaxValueOfRGB s v).maxValueOfRGB = v := by
  refine ⟨?_, rfl, rfl, ?_⟩
  · simp [TakeAPrior, hmask]
  · simp [SetMaxValueOfRGB, Modified, Ne.symm hv]

/-- C3 witness: a mask selecting no pixel of the domain is rejected by
`TakeAPrior`, while out-of-range indices and a negative maximum are
silently stored. -/
theorem error_surfacing_witness :
    TakeAPrior id initState (fun _ => false) [0] = Except.error () ∧
    (SetTestMean initState 7 8 9).testMean = ![7, 8, 9] ∧
    (SetTestVar initState 7 8 9).testVar = ![7, 8, 9] ∧
    (SetMaxValueOfRGB initState (-3)).maxValueOfRGB = -3 :=
  error_surfacing id initState 7 8 9 (-3) (fun _ => false) [0] rfl (by decide)

/-- C8 counterexample: widening the percent errors can turn an accepted
region into a rejected one when a tested target statistic is negative.  In
the reachable configuration `negMeanConfig` (target mean -1 on the tested
channel 0), the one-pixel region [0] is accepted with
`MeanPercentError = VarPercentError = 0` but rejected after the mean
percent error is widened channel-wise from 0 to 1 (the recomputed
tolerance `(-1)·1 = -1` is negative).  The square-root parameter `id` is
exact on the only variance that occurs, namely 0. -/
theorem widen_percent_error_cex :
    (∀ j : ℕ, (fun _ : ℕ => (0 : ℚ)) j ≤ (fun _ : ℕ => (1 : ℚ)) j) ∧
    TestHomogeneity id
      (SetVarPercentError (SetMeanPercentError negMeanConfig fun _ => 0) fun _ => 0)
      [0] = true ∧
    TestHomogeneity id
      (SetVarPercentError (SetMeanPercentError negMeanConfig fun _ => 1) fun _ => 0)
      [0] = false := by
  refine ⟨fun _ => by norm_num, ?_, ?_⟩ <;>
    simp [TestHomogeneity, meanPass, varPass, regionMean, regionVar, regionSum,
      SetVarPercentError, SetMeanPercentError, negMeanConfig, SetVar, SetMean,
      SetTestVar, SetTestMean, SetInput, initState, negInput, upd6,
      expandImage, expandPixel, pixH, pixC, pixV, pixMin, hue6]

/-- C8 (amended): widening `MeanPercentError` and/or `VarPercentError`
channel-wise — recomputing the tolerances through the percent-error setters
and holding the image, statistics and channel selections fixed — never
turns an accepted region into a rejected one, provided the target mean on
each mean-tested channel and the target standard deviation on each
std-tested channel are nonnegative.  (Without that proviso the recomputed
band `Mean[c] * pct` shrinks as `pct` grows whenever `Mean[c] < 0`; see the
counterexample.) -/
theorem widen_percent_error_mono (sq : ℚ → ℚ) (s : FilterState)
    (plist : List ℕ) (pm pv pm' pv' : ℕ → ℚ)
    (hm : ∀ k : Fin 3, 0 ≤ s.mean (s.testMean k))
    (hv : ∀ k : Fin 3, 0 ≤ s.var (s.testVar k))
    (hpm : ∀ j, pm j ≤ pm' j) (hpv : ∀ j, pv j ≤ pv' j)
    (hacc : TestHomogeneity sq
      (SetVarPercentError (SetMeanPercentError s pm) pv) plist = true) :
    TestHomogeneity sq
      (SetVarPercentError (SetMeanPercentError s pm') pv') plist = true := by
  have hne : plist ≠ [] := by
    rintro rfl
    simp [TestHomogeneity] at hacc
  rw [testHomogeneity_true_iff _ _ _ hne] at hacc ⊢
  simp only [SetVarPercentError, SetMeanPercentError, upd6] at hacc ⊢
  obtain ⟨hmean, hvar⟩ := hacc
  constructor
  · intro k
    have h1 := hmean k
    by_cases hc : s.testMean k < 6
    · simp only [hc, if_true] at h1 ⊢
      exact le_trans h1 (mul_le_mul_of_nonneg_left (hpm (s.testMean k)) (hm k))
    · simp only [hc, if_false] at h1 ⊢
      exact h1
  · intro k
    have h1 := hvar k
    by_cases hc : s.testVar k < 6
    · simp only [hc, if_true] at h1 ⊢
      exact le_trans h1 (mul_le_mul_of_nonneg_left (hpv (s.testVar k)) (hv k))
    · simp only [hc, if_false] at h1 ⊢
      exact h1

/-- C8 witness: on a fresh filter the one-pixel region [0] is accepted with
zero percent errors, and by the monotonicity theorem remains accepted after
both percent-error arrays are widened to 1. -/
theorem widen_percent_error_mono_witness :
    TestHomogeneity id
      (SetVarPercentError (SetMeanPercentError initState fun _ => 1) fun _ => 1)
      [0] = true :=
  widen_percent_error_mono id initState [0] (fun _ => 0) (fun _ => 0)
    (fun _ => 1) (fun _ => 1)
    (fun _ => by norm_num [initState])
    (fun _ => by norm_num [initState])
    (fun _ => by norm_num) (fun _ => by norm_num)
    (by simp [TestHomogeneity, meanPass, varPass, regionMean, regionVar, regionSum,
      SetVarPercentError, SetMeanPercentError, initState, upd6])

end ITK.VoronoiRGB
